import Mathlib

/-!
Verification of the mission-control telemetry backend (server in
`server/index.ts` style TypeScript). The definitions below are a shallow
embedding of the revenue, lead, cron-job and agent aggregation functions.

Modelling conventions:
* JavaScript objects (`Record<string, unknown>`) are embedded as Lean
  structures whose fields are `Option`-typed: `none` models a missing (or
  `null`) field, so the JS nullish-coalescing operator `a ?? b` becomes
  `jsOr a b`.
* Timestamps are modelled by their epoch-millisecond value (`Int`).  The
  server's `toIso` converts a raw field to an ISO string (or `null`) and
  every later consumer re-parses that ISO string with `Date.parse`, which
  round-trips to the same millisecond value; a field that feeds `toIso` is
  therefore typed `Option (Option Int)`: the outer layer is field presence
  (for the `??` fallback chains) and the inner layer is parse success.
* JS numbers are embedded as `ℚ`; a value of `none` at an `Option ℚ` field
  models a missing field (the `Number(x) || 0` coercions are then `getD 0`).
-/

namespace MissionControl

/-- JS nullish coalescing `a ?? b` on embedded optional values. -/
def jsOr {α : Type} (a b : Option α) : Option α :=
  match a with
  | some v => some v
  | none => b

@[simp] theorem jsOr_some {α : Type} (v : α) (b : Option α) : jsOr (some v) b = some v := rfl

@[simp] theorem jsOr_none {α : Type} (b : Option α) : jsOr none b = b := rfl

/-! The JS string primitives used by the server are embedded over the
character data of Lean strings (ASCII-faithful, which covers every constant
the server compares against). -/

/-- JS `String.prototype.toLowerCase`. -/
def jsToLower (s : String) : String := String.mk (s.data.map Char.toLower)

/-- JS `String.prototype.includes`: substring containment. -/
def strIncludes (s pat : String) : Bool := decide (pat.data <:+: s.data)

/-- JS `String.prototype.endsWith`: suffix test. -/
def strEndsWith (s pat : String) : Bool := decide (pat.data <:+ s.data)

/-- JS `String.prototype.startsWith`: prefix test. -/
def strStartsWith (s pat : String) : Bool := decide (pat.data <+: s.data)

/-- JS `Math.round`: round half toward positive infinity. -/
def jsRound (q : ℚ) : ℤ := ⌊q + 1 / 2⌋

/-- Embedding of `normalizeScore` (`index.ts`): scores that can be read as a
finite number are scaled by 10 when at most 10, rounded, and clamped to
[0, 100]; anything else (`none` models a non-numeric / non-finite input)
yields 0. -/
def normalizeScore (value : Option ℚ) : ℤ :=
  match value with
  | none => 0
  | some numeric =>
    let normalized := if numeric ≤ 10 then numeric * 10 else numeric
    max 0 (min 100 (jsRound normalized))

/-- Embedding of the audit-score selection in `loadAuditSummaries`:
`report.overallScore ?? report.score?.overall ?? raw.score`. -/
def auditScoreValue (overallScore scoreOverall rawScore : Option ℚ) : Option ℚ :=
  jsOr overallScore (jsOr scoreOverall rawScore)

/-- Derived cron-job status values. -/
inductive CronStatus : Type
  | ok
  | error
  | running
  | idle
  | disabled
deriving DecidableEq, Repr

/-- Recorded run state of a raw cron job (`job.state ?? {}`).  `runningAtMs`
keeps only whether the field holds a JS number (and its value);
`lastStatus` / `lastRunStatus` keep string values (non-string values never
match any of the recognised status keywords). -/
structure CronState : Type where
  runningAtMs : Option ℚ := none
  lastStatus : Option String := none
  lastRunStatus : Option String := none
  lastRunAtMs : Option Int := none
  nextRunAtMs : Option Int := none
  lastDurationMs : Option ℚ := none
  lastError : Option String := none
deriving DecidableEq, Repr

/-- A raw cron job record as obtained from the CLI JSON or the fallback
file.  `payloadModel` models `payload.model` when it is a string. -/
structure CronRawJob : Type where
  id : Option String := none
  agentId : Option String := none
  name : Option String := none
  enabled : Option Bool := none
  schedule : Option String := none
  payloadModel : Option String := none
  state : CronState := {}
deriving DecidableEq, Repr

/-- The `lastStatus` local of `normalizeCronStatus`:
`String(state.lastStatus ?? state.lastRunStatus ?? '').toLowerCase()`. -/
def cronLastStatus (job : CronRawJob) : String :=
  jsToLower ((jsOr job.state.lastStatus job.state.lastRunStatus).getD "")

/-- Embedding of `normalizeCronStatus`: `disabled` when `enabled === false`,
else `running` when the state carries a numeric `runningAtMs`, else keyword
lookup on the lower-cased last status, else `idle`. -/
def normalizeCronStatus (job : CronRawJob) : CronStatus :=
  if job.enabled = some false then .disabled
  else if job.state.runningAtMs.isSome then .running
  else if cronLastStatus job ∈ (["ok", "success", "completed"] : List String) then .ok
  else if cronLastStatus job ∈ (["error", "failed", "timeout"] : List String) then .error
  else .idle

/-! ### Stable descending sort

The server sorts with JavaScript's stable `Array.prototype.sort` and a
comparator of the shape `(a, b) => key(b) - key(a)`, i.e. a stable sort
descending by an integer key.  We embed it as a stable insertion sort. -/

/-- Insert `x` into `l`, placing it before the first element with a strictly
smaller key (so elements with an equal key keep their original order). -/
def insDescBy {α : Type} (key : α → Int) (x : α) : List α → List α
  | [] => [x]
  | y :: ys => if key y < key x then x :: y :: ys else y :: insDescBy key x ys

/-- Stable sort, descending by `key`. -/
def sortDescBy {α : Type} (key : α → Int) (l : List α) : List α :=
  l.foldr (insDescBy key) []

theorem insDescBy_perm {α : Type} (key : α → Int) (x : α) (l : List α) :
    (insDescBy key x l).Perm (x :: l) := by
  induction l with
  | nil => simp [insDescBy]
  | cons y ys ih =>
    by_cases h : key y < key x
    · simp [insDescBy, h]
    · simp only [insDescBy, if_neg h]
      exact (ih.cons y).trans (List.Perm.swap x y ys)

theorem sortDescBy_perm {α : Type} (key : α → Int) (l : List α) :
    (sortDescBy key l).Perm l := by
  induction l with
  | nil => simp [sortDescBy]
  | cons y ys ih =>
    exact (insDescBy_perm key y (sortDescBy key ys)).trans (ih.cons y)

theorem insDescBy_sorted {α : Type} (key : α → Int) (x : α) (l : List α)
    (h : l.Pairwise (fun a b => key b ≤ key a)) :
    (insDescBy key x l).Pairwise (fun a b => key b ≤ key a) := by
  induction l with
  | nil => simp [insDescBy]
  | cons y ys ih =>
    rcases List.pairwise_cons.mp h with ⟨hy, hys⟩
    by_cases hk : key y < key x
    · simp only [insDescBy, if_pos hk]
      refine List.pairwise_cons.mpr ⟨?_, h⟩
      intro z hz
      rcases List.mem_cons.mp hz with hz1 | hz2
      · subst hz1; exact le_of_lt hk
      · exact le_trans (hy z hz2) (le_of_lt hk)
    · simp only [insDescBy, if_neg hk]
      refine List.pairwise_cons.mpr ⟨?_, ih hys⟩
      intro z hz
      rcases List.mem_cons.mp ((insDescBy_perm key x ys).mem_iff.mp hz) with hz1 | hz2
      · subst hz1; exact le_of_not_lt hk
      · exact hy z hz2

theorem sortDescBy_sorted {α : Type} (key : α → Int) (l : List α) :
    (sortDescBy key l).Pairwise (fun a b => key b ≤ key a) := by
  induction l with
  | nil => simp [sortDescBy]
  | cons y ys ih => exact insDescBy_sorted key y (sortDescBy key ys) ih

theorem sortDescBy_length {α : Type} (key : α → Int) (l : List α) :
    (sortDescBy key l).length = l.length :=
  (sortDescBy_perm key l).length_eq

/-! ### Revenue aggregation (`/api/revenue`) -/

/-- A raw record from the payments file or from the business-metrics
`history` array.  The fields cover every key the server reads from either
shape; absent keys are `none`. -/
structure RevenueRecord : Type where
  businessName : Option String := none
  email : Option String := none
  sessionId : Option String := none
  client : Option String := none
  name : Option String := none
  amount : Option ℚ := none
  value : Option ℚ := none
  revenue : Option ℚ := none
  total : Option ℚ := none
  timestamp : Option (Option Int) := none
  date : Option (Option Int) := none
  createdAt : Option (Option Int) := none
deriving DecidableEq, Repr

/-- Embedding of `isSyntheticPayment`: placeholder business name, example
email domain, or test-prefixed session id (all case-insensitive). -/
def isSyntheticPayment (payment : RevenueRecord) : Bool :=
  let businessName := jsToLower (payment.businessName.getD "")
  let email := jsToLower (payment.email.getD "")
  let sessionId := jsToLower (payment.sessionId.getD "")
  strIncludes businessName "acme co" || strEndsWith email ".example" ||
    strStartsWith sessionId "cs_test_"

/-- A normalized revenue entry `{amount, timestamp, businessName}`. -/
structure RevEntry : Type where
  amount : ℚ
  timestamp : Option Int
  businessName : String
deriving DecidableEq, Repr

/-- The `Date.parse(entry.timestamp)` of an entry that survived the
`timestamp !== null` filter. -/
def revEntryTime (e : RevEntry) : Int := e.timestamp.getD 0

/-- Payment-file record normalization inside `loadRevenueEntries`. -/
def mapPaymentEntry (payment : RevenueRecord) : RevEntry :=
  { amount := payment.amount.getD 0
    timestamp := (payment.timestamp).join
    businessName := (jsOr payment.businessName payment.email).getD "Unknown" }

/-- Business-metrics history record normalization inside
`loadRevenueEntries`. -/
def mapHistoryEntry (entry : RevenueRecord) : RevEntry :=
  { amount := (jsOr entry.amount (jsOr entry.value (jsOr entry.revenue entry.total))).getD 0
    timestamp := (jsOr entry.timestamp (jsOr entry.date entry.createdAt)).join
    businessName := (jsOr entry.businessName (jsOr entry.client entry.name)).getD
      "Recorded revenue" }

/-- Embedding of `loadRevenueEntries`: synthetic payments are filtered out
of the payments file, history entries are mapped as-is, entries without a
parsable timestamp or with a non-positive amount are dropped, and the rest
is sorted descending by timestamp. -/
def loadRevenueEntries (payments history : List RevenueRecord) : List RevEntry :=
  let paymentEntries := (payments.filter (fun payment => !isSyntheticPayment payment)).map
    mapPaymentEntry
  let historyEntries := history.map mapHistoryEntry
  sortDescBy revEntryTime
    ((paymentEntries ++ historyEntries).filter
      (fun entry => entry.timestamp.isSome && decide ((0 : ℚ) < entry.amount)))

/-- One iteration of the bucket-accumulation loop of `loadRevenuePayload`:
the amount is added to each bucket whose start the timestamp reaches. -/
def bucketStep (todayStart weekStart monthStart : Int) (acc : ℚ × ℚ × ℚ)
    (payment : RevEntry) : ℚ × ℚ × ℚ :=
  let time := revEntryTime payment
  ( if todayStart ≤ time then acc.1 + payment.amount else acc.1,
    if weekStart ≤ time then acc.2.1 + payment.amount else acc.2.1,
    if monthStart ≤ time then acc.2.2 + payment.amount else acc.2.2)

/-- The bucket-accumulation loop of `loadRevenuePayload`. -/
def revenueBucketLoop (todayStart weekStart monthStart : Int)
    (entries : List RevEntry) : ℚ × ℚ × ℚ :=
  entries.foldl (bucketStep todayStart weekStart monthStart) (0, 0, 0)

/-- The `/api/revenue` response body (computed fields only). -/
structure RevenuePayload : Type where
  today : ℚ
  week : ℚ
  month : ℚ
  payments : List RevEntry
  totalCount : Nat
deriving DecidableEq, Repr

/-- Embedding of `loadRevenuePayload`.  `goalTotal` models `goal.total` from
the business-metrics file (`none` when absent or non-numeric); the three
start instants are the epoch-ms values of `startOfToday`, `startOfWeek`
and `startOfMonth`, which depend on the wall clock and are therefore
parameters. -/
def loadRevenuePayload (goalTotal : Option ℚ) (paymentsRaw history : List RevenueRecord)
    (todayStart weekStart monthStart : Int) : RevenuePayload :=
  let payments := loadRevenueEntries paymentsRaw history
  let totals := revenueBucketLoop todayStart weekStart monthStart payments
  { today := totals.1
    week := totals.2.1
    month := if 0 < payments.length then totals.2.2 else goalTotal.getD 0
    payments := payments.take 5
    totalCount := payments.length }

/-! ### Lead aggregation (`/api/leads`) -/

/-- A raw record of the geo-audit document JSON store (`leads.json`). -/
structure GeoLeadRec : Type where
  name : Option String := none
  fullName : Option String := none
  businessName : Option String := none
  email : Option String := none
  website : Option String := none
  websiteUrl : Option String := none
  createdAt : Option (Option Int) := none
  timestamp : Option (Option Int) := none
deriving DecidableEq, Repr

/-- A row of the sales-agent structured SQLite store (identical shape from
the native driver and from the CLI fallback). -/
structure SalesLeadRec : Type where
  business_name : Option String := none
  contact_name : Option String := none
  contact_email : Option String := none
  website : Option String := none
  updated_at : Option (Option Int) := none
  created_at : Option (Option Int) := none
deriving DecidableEq, Repr

/-- A record of a `prospect-*.json` batch file together with the file's
modification time (`none` when `statSync` throws). -/
structure ProspectBatchItem : Type where
  business_name : Option String := none
  name : Option String := none
  website : Option String := none
  mtimeMs : Option Int := none
deriving DecidableEq, Repr

/-- A source-normalized lead inside `loadLeadsPayload`, before dedup. -/
structure MappedLead : Type where
  name : String
  email : String
  source : String
  createdAt : Option Int
  website : String
deriving DecidableEq, Repr

/-- A deduplicated lead as returned by `/api/leads` (the dedup map drops the
`website` field). -/
structure DedupLead : Type where
  name : String
  email : String
  source : String
  createdAt : Option Int
deriving DecidableEq, Repr

/-- Normalization of a document-store lead. -/
def mapGeoLead (lead : GeoLeadRec) : MappedLead :=
  { name := (jsOr lead.name (jsOr lead.fullName (jsOr lead.businessName lead.email))).getD "Lead"
    email := lead.email.getD ""
    source := "geo-audit"
    createdAt := (jsOr lead.createdAt lead.timestamp).join
    website := (jsOr lead.website lead.websiteUrl).getD "" }

/-- Normalization of a structured-store lead. -/
def mapSalesLead (lead : SalesLeadRec) : MappedLead :=
  { name := (jsOr lead.business_name (jsOr lead.contact_name lead.contact_email)).getD "Lead"
    email := lead.contact_email.getD ""
    source := "sales-db"
    createdAt := (jsOr lead.updated_at lead.created_at).join
    website := lead.website.getD "" }

/-- Normalization of a batch-file lead: no email, and the file's
modification time stands in for the creation timestamp. -/
def mapProspectLead (item : ProspectBatchItem) : MappedLead :=
  { name := (jsOr item.business_name (jsOr item.name item.website)).getD "Lead"
    email := ""
    source := "sales-prospect"
    createdAt := item.mtimeMs
    website := item.website.getD "" }

/-- The case-folded composite dedup key built in `loadLeadsPayload`. -/
def dedupKey (lead : MappedLead) : String :=
  jsToLower lead.email ++ "|" ++ jsToLower lead.website ++ "|" ++ jsToLower lead.name

/-- The value stored in the dedup map for a lead. -/
def toDedup (lead : MappedLead) : DedupLead :=
  { name := lead.name, email := lead.email, source := lead.source, createdAt := lead.createdAt }

/-- One iteration of the dedup loop: a lead is kept only when its key is new
(insertion order is preserved, mirroring a JS `Map`). -/
def dedupStep (acc : List (String × DedupLead)) (lead : MappedLead) :
    List (String × DedupLead) :=
  if acc.any (fun kv => kv.1 == dedupKey lead) then acc
  else acc ++ [(dedupKey lead, toDedup lead)]

/-- The dedup loop of `loadLeadsPayload` over the merged source list. -/
def dedupFold (leads : List MappedLead) : List (String × DedupLead) :=
  leads.foldl dedupStep []

/-- The sort key of the final lead sort:
`a.createdAt ? Date.parse(a.createdAt) : 0` (ISO strings are truthy). -/
def leadSortKey (lead : DedupLead) : Int := lead.createdAt.getD 0

/-- The `/api/leads` response body (computed fields only). -/
structure LeadsPayload : Type where
  leads : List DedupLead
  count : Nat
deriving DecidableEq, Repr

/-- The concatenation `[...salesDbLeads, ...geoAuditLeads,
...prospectBatchLeads]` iterated by the dedup loop: source-priority order is
structured SQLite store, then document JSON store, then batch files. -/
def mergedLeads (geo : List GeoLeadRec) (sales : List SalesLeadRec)
    (prospects : List ProspectBatchItem) : List MappedLead :=
  sales.map mapSalesLead ++ geo.map mapGeoLead ++ prospects.map mapProspectLead

/-- Embedding of `loadLeadsPayload`: normalize the three sources, iterate in
priority order (structured store, then document store, then batch files),
keep the first lead per key, and sort descending by creation timestamp. -/
def loadLeadsPayload (geo : List GeoLeadRec) (sales : List SalesLeadRec)
    (prospects : List ProspectBatchItem) : LeadsPayload :=
  let deduped := dedupFold (mergedLeads geo sales prospects)
  let leads := sortDescBy leadSortKey (deduped.map Prod.snd)
  { leads := leads, count := leads.length }

/-! ### Cron payload (`/api/crons`) and agent status (`/api/agents`) -/

/-- Which source chain produced the cron jobs. -/
inductive CronSource : Type
  | cli
  | file
deriving DecidableEq, Repr

/-- Outcome of `JSON.parse` on the CLI stdout: a JSON array, an object with
a `jobs` array, or any other JSON value. -/
inductive CliParsed : Type
  | arr (items : List CronRawJob)
  | objWithJobs (jobs : List CronRawJob)
  | other
deriving DecidableEq, Repr

/-- The CLI-extraction block of `loadCronJobs`: jobs are taken from the CLI
only when the command succeeded (`ok`), its trimmed stdout was nonempty,
and the JSON parsed (`parsed ≠ none`) to an array or to an object with a
`jobs` array. -/
def cliExtractJobs (ok stdoutNonempty : Bool) (parsed : Option CliParsed) :
    List CronRawJob :=
  if ok && stdoutNonempty then
    match parsed with
    | none => []
    | some (.arr items) => items
    | some (.objWithJobs jobs) => jobs
    | some .other => []
  else []

/-- A mapped cron job as returned by `/api/crons`. -/
structure CronJob : Type where
  id : String
  agentId : String
  name : String
  enabled : Bool
  model : Option String
  schedule : Option String
  status : CronStatus
  lastRunAt : Option Int
  nextRunAt : Option Int
  lastDurationMs : Option ℚ
  lastError : Option String
deriving DecidableEq, Repr

/-- The per-job mapping inside `loadCronJobs`. -/
def mapCronJob (job : CronRawJob) : CronJob :=
  { id := job.id.getD ""
    agentId := job.agentId.getD "main"
    name := (jsOr job.name job.id).getD "Unnamed Job"
    enabled := job.enabled != some false
    model := job.payloadModel
    schedule := job.schedule
    status := normalizeCronStatus job
    lastRunAt := job.state.lastRunAtMs
    nextRunAt := job.state.nextRunAtMs
    lastDurationMs := job.state.lastDurationMs
    lastError := job.state.lastError }

/-- The `/api/crons` response body. -/
structure CronPayload : Type where
  source : CronSource
  jobs : List CronJob
  count : Nat
deriving DecidableEq, Repr

/-- Embedding of `loadCronJobs`: try the CLI first; whenever that yields an
empty job list (command failure, empty stdout, unparsable output, wrong
shape, or an empty array) fall back to the static jobs file and report
`source: "file"`. -/
def loadCronJobs (ok stdoutNonempty : Bool) (parsed : Option CliParsed)
    (fileJobs : List CronRawJob) : CronPayload :=
  let cliJobs := cliExtractJobs ok stdoutNonempty parsed
  if cliJobs.length = 0 then
    { source := CronSource.file, jobs := fileJobs.map mapCronJob
      count := (fileJobs.map mapCronJob).length }
  else
    { source := CronSource.cli, jobs := cliJobs.map mapCronJob
      count := (cliJobs.map mapCronJob).length }

/-- Derived agent status values of the current server. -/
inductive AgentStatus : Type
  | active
  | scheduled
  | idle
deriving DecidableEq, Repr

/-- A cron job as seen by `loadAgents` after its re-stringification step
(`status: String(job.status ?? '')`). -/
structure MappedAgentJob : Type where
  name : String
  status : String
  model : Option String := none
  lastRunAt : Option Int := none
  nextRunAt : Option Int := none
deriving DecidableEq, Repr

/-- The status derivation of `buildAgentSummary`: `active` when some owned
job is running, else `scheduled` when the agent owns any job, else `idle`. -/
def buildAgentSummaryStatus (jobs : List MappedAgentJob) : AgentStatus :=
  if (jobs.find? (fun job => job.status == "running")).isSome then .active
  else if 0 < jobs.length then .scheduled
  else .idle

/-! ### Revenue lemmas -/

/-- Total amount of the entries whose timestamp reaches `start`. -/
def bucketTotal (start : Int) (entries : List RevEntry) : ℚ :=
  ((entries.filter (fun e => decide (start ≤ revEntryTime e))).map RevEntry.amount).sum

theorem revenueBucketLoop_go (t w m : Int) (l : List RevEntry) :
    ∀ acc : ℚ × ℚ × ℚ,
      l.foldl (bucketStep t w m) acc
        = (acc.1 + bucketTotal t l, acc.2.1 + bucketTotal w l, acc.2.2 + bucketTotal m l) := by
  induction l with
  | nil => intro acc; simp [bucketTotal]
  | cons e l ih =>
    intro acc
    rw [List.foldl_cons, ih]
    refine Prod.ext ?_ (Prod.ext ?_ ?_)
    · by_cases h : t ≤ revEntryTime e <;>
        simp [bucketStep, bucketTotal, List.filter_cons, h] <;> ring
    · by_cases h : w ≤ revEntryTime e <;>
        simp [bucketStep, bucketTotal, List.filter_cons, h] <;> ring
    · by_cases h : m ≤ revEntryTime e <;>
        simp [bucketStep, bucketTotal, List.filter_cons, h] <;> ring

theorem revenueBucketLoop_spec (t w m : Int) (l : List RevEntry) :
    revenueBucketLoop t w m l = (bucketTotal t l, bucketTotal w l, bucketTotal m l) := by
  simpa using revenueBucketLoop_go t w m l (0, 0, 0)

/-- A record that sets none of the identity fields inspected by the
synthetic-data heuristic is never flagged. -/
theorem isSyntheticPayment_default (a : Option ℚ) (ts : Option (Option Int)) :
    isSyntheticPayment { amount := a, timestamp := ts } = false := rfl

theorem loadRevenueEntries_singleton (a : ℚ) (ha : 0 < a) (ts : Int) :
    loadRevenueEntries [{ amount := some a, timestamp := some (some ts) }] []
      = [{ amount := a, timestamp := some ts, businessName := "Unknown" }] := by
  simp [loadRevenueEntries, isSyntheticPayment_default, mapPaymentEntry, jsOr,
    Option.join, sortDescBy, insDescBy, ha]

/-- A history record with a placeholder business name: the synthetic-data
heuristic flags it, but `loadRevenueEntries` never applies the heuristic to
the business-metrics history. -/
def syntheticHistoryEntry : RevenueRecord :=
  { businessName := some "Acme Co", amount := some 100, timestamp := some (some 5) }

/-- C1 counterexample: a business-metrics history record that the
synthetic-data heuristic flags (business name containing the placeholder
"acme co") still contributes its amount to the `today`, `week` and `month`
totals of `/api/revenue` and appears in the returned payments list, because
`loadRevenueEntries` filters only the payments file through
`isSyntheticPayment`. -/
theorem synthetic_history_entry_counted :
    isSyntheticPayment syntheticHistoryEntry = true
    ∧ (loadRevenuePayload none [] [syntheticHistoryEntry] 0 0 0).today = 100
    ∧ (loadRevenuePayload none [] [syntheticHistoryEntry] 0 0 0).week = 100
    ∧ (loadRevenuePayload none [] [syntheticHistoryEntry] 0 0 0).month = 100
    ∧ (loadRevenuePayload none [] [syntheticHistoryEntry] 0 0 0).payments
        = [{ amount := 100, timestamp := some 5, businessName := "Acme Co" }] := by
  have h0 : (0 : ℚ) < 100 := by norm_num
  have hentries : loadRevenueEntries [] [syntheticHistoryEntry]
      = [{ amount := 100, timestamp := some 5, businessName := "Acme Co" }] := by
    simp [loadRevenueEntries, mapHistoryEntry, syntheticHistoryEntry, jsOr,
      Option.join, sortDescBy, insDescBy, h0]
  refine ⟨rfl, ?_, ?_, ?_, ?_⟩ <;>
    simp [loadRevenuePayload, hentries, revenueBucketLoop_spec, bucketTotal, revEntryTime]

/-- C1 (amended): the synthetic-data heuristic is applied to the payments
file only.  Every payments-file record it flags contributes nothing to the
`today`/`week`/`month` totals and never appears in the returned payments
list: removing all flagged payment records from the input leaves both the
merged entry list and the whole `/api/revenue` payload unchanged.  (History
records from the business-metrics file are not subject to the heuristic,
see the counterexample.) -/
theorem synthetic_payments_excluded (goalTotal : Option ℚ)
    (payments history : List RevenueRecord) (t w m : Int) :
    loadRevenueEntries (payments.filter (fun p => !isSyntheticPayment p)) history
      = loadRevenueEntries payments history
    ∧ loadRevenuePayload goalTotal (payments.filter (fun p => !isSyntheticPayment p))
        history t w m
      = loadRevenuePayload goalTotal payments history t w m := by
  have h : (payments.filter (fun p => !isSyntheticPayment p)).filter
      (fun p => !isSyntheticPayment p) = payments.filter (fun p => !isSyntheticPayment p) := by
    rw [List.filter_filter]
    simp
  refine ⟨?_, ?_⟩
  · simp only [loadRevenueEntries, h]
  · simp only [loadRevenuePayload, loadRevenueEntries, h]

/-- C5: a non-synthetic revenue record with a valid timestamp is counted in
a bucket exactly when its timestamp is at or after the bucket's start
instant: each total equals the sum of the amounts of precisely those merged
entries whose timestamp reaches that bucket's start (for `month`, whenever
any entry exists at all).  In particular a payment timestamped exactly at
the week start counts in `week` and one timestamped one millisecond earlier
does not. -/
theorem revenue_bucket_boundaries (goalTotal : Option ℚ)
    (payments history : List RevenueRecord) (t w m : Int) :
    (loadRevenuePayload goalTotal payments history t w m).today
        = bucketTotal t (loadRevenueEntries payments history)
    ∧ (loadRevenuePayload goalTotal payments history t w m).week
        = bucketTotal w (loadRevenueEntries payments history)
    ∧ (loadRevenueEntries payments history ≠ [] →
        (loadRevenuePayload goalTotal payments history t w m).month
          = bucketTotal m (loadRevenueEntries payments history))
    ∧ (∀ a : ℚ, 0 < a →
        (loadRevenuePayload goalTotal
            [{ amount := some a, timestamp := some (some w) }] [] t w m).week = a
        ∧ (loadRevenuePayload goalTotal
            [{ amount := some a, timestamp := some (some (w - 1)) }] [] t w m).week = 0) := by
  refine ⟨?_, ?_, ?_, ?_⟩
  · simp [loadRevenuePayload, revenueBucketLoop_spec]
  · simp [loadRevenuePayload, revenueBucketLoop_spec]
  · intro h
    simp [loadRevenuePayload, revenueBucketLoop_spec, List.length_pos.mpr h]
  · intro a ha
    have hlt : ¬ (w ≤ w - 1) := by omega
    constructor
    · simp [loadRevenuePayload, loadRevenueEntries_singleton a ha,
        revenueBucketLoop_spec, bucketTotal, revEntryTime]
    · simp [loadRevenuePayload, loadRevenueEntries_singleton a ha,
        revenueBucketLoop_spec, bucketTotal, revEntryTime, hlt]

/-- C5 witness: boundary behaviour at a concrete week start. -/
theorem revenue_bucket_boundaries_witness :
    (0 : ℚ) < 7
    ∧ (loadRevenuePayload none [{ amount := some 7, timestamp := some (some 0) }]
        [] 0 0 0).week = 7
    ∧ (loadRevenuePayload none [{ amount := some 7, timestamp := some (some (0 - 1)) }]
        [] 0 0 0).week = 0 := by
  have h := (revenue_bucket_boundaries none [] [] 0 0 0).2.2.2 7 (by norm_num)
  exact ⟨by norm_num, h.1, h.2⟩

/-- C10: when the merged, filtered revenue-entry list is empty, `month`
falls back to the numeric `goal.total` of the business-metrics file (0 when
that field is absent), while `today`, `week` and `totalCount` are 0 and the
payments list is empty — so `month` can be nonzero with no revenue entries. -/
theorem revenue_month_goal_fallback (goalTotal : Option ℚ)
    (payments history : List RevenueRecord) (t w m : Int)
    (h : loadRevenueEntries payments history = []) :
    (loadRevenuePayload goalTotal payments history t w m).month = goalTotal.getD 0
    ∧ (loadRevenuePayload goalTotal payments history t w m).today = 0
    ∧ (loadRevenuePayload goalTotal payments history t w m).week = 0
    ∧ (loadRevenuePayload goalTotal payments history t w m).totalCount = 0
    ∧ (loadRevenuePayload goalTotal payments history t w m).payments = [] := by
  simp [loadRevenuePayload, h, revenueBucketLoop_spec, bucketTotal]

/-- C10 witness: with no revenue records and `goal.total` 4500, `month` is
the nonzero 4500 while `today` and `week` stay 0. -/
theorem revenue_month_goal_fallback_witness :
    (loadRevenuePayload (some 4500) [] [] 0 0 0).month = 4500
    ∧ (loadRevenuePayload (some 4500) [] [] 0 0 0).today = 0
    ∧ (loadRevenuePayload (some 4500) [] [] 0 0 0).week = 0
    ∧ (loadRevenuePayload (some 4500) [] [] 0 0 0).totalCount = 0
    ∧ (4500 : ℚ) ≠ 0 := by
  have h := revenue_month_goal_fallback (some 4500) [] [] 0 0 0 rfl
  exact ⟨h.1, h.2.1, h.2.2.1, h.2.2.2.1, by norm_num⟩

/-! ### Score, cron-status, cron-source and agent-status claims -/

/-- C6: score normalization multiplies values at most 10 by 10, then rounds
and clamps to [0, 100]; non-numeric input (`none`) yields 0; every output
lies in [0, 100]; and the concrete inputs 7, 85, -3, 140 map to 70, 85, 0,
100, while a cache file whose only score is `report.overallScore: 8.5`
yields 85. -/
theorem score_normalization :
    (∀ q : ℚ, q ≤ 10 → normalizeScore (some q) = max 0 (min 100 (jsRound (q * 10))))
    ∧ (∀ q : ℚ, ¬ q ≤ 10 → normalizeScore (some q) = max 0 (min 100 (jsRound q)))
    ∧ normalizeScore none = 0
    ∧ (∀ v : Option ℚ, 0 ≤ normalizeScore v ∧ normalizeScore v ≤ 100)
    ∧ normalizeScore (some 7) = 70
    ∧ normalizeScore (some 85) = 85
    ∧ normalizeScore (some (-3)) = 0
    ∧ normalizeScore (some 140) = 100
    ∧ normalizeScore (auditScoreValue (some (17 / 2)) none none) = 85 := by
  refine ⟨?_, ?_, rfl, ?_, ?_, ?_, ?_, ?_, ?_⟩
  · intro q hq
    simp [normalizeScore, hq]
  · intro q hq
    simp [normalizeScore, hq]
  · intro v
    cases v with
    | none => exact ⟨le_refl 0, by decide⟩
    | some q =>
      refine ⟨le_max_left 0 _, ?_⟩
      exact max_le (by norm_num) (min_le_left 100 _)
  · norm_num [normalizeScore, jsRound]
  · norm_num [normalizeScore, jsRound]
  · norm_num [normalizeScore, jsRound]
  · norm_num [normalizeScore, jsRound]
  · norm_num [normalizeScore, auditScoreValue, jsOr, jsRound]

/-- C6 witness: the two conditional clauses instantiated at 7 and 140. -/
theorem score_normalization_witness :
    ((7 : ℚ) ≤ 10 ∧ normalizeScore (some 7) = max 0 (min 100 (jsRound (7 * 10))))
    ∧ (¬ (140 : ℚ) ≤ 10 ∧ normalizeScore (some 140) = max 0 (min 100 (jsRound 140))) :=
  ⟨⟨by norm_num, score_normalization.1 7 (by norm_num)⟩,
    ⟨by norm_num, score_normalization.2.1 140 (by norm_num)⟩⟩

/-- C2: the derived cron status follows the fixed precedence: `disabled`
whenever `enabled == false` regardless of run state; else `running` when
the state carries a numeric `runningAtMs`; else `ok` when the lower-cased
last recorded outcome is one of ok/success/completed; else `error` when it
is one of error/failed/timeout; else `idle`.  A job with `enabled: true`,
no `runningAtMs` and `lastStatus: "failed"` derives `error`. -/
theorem cron_status_precedence (job : CronRawJob) :
    (job.enabled = some false → normalizeCronStatus job = .disabled)
    ∧ (job.enabled ≠ some false → job.state.runningAtMs.isSome →
        normalizeCronStatus job = .running)
    ∧ (job.enabled ≠ some false → job.state.runningAtMs = none →
        cronLastStatus job ∈ (["ok", "success", "completed"] : List String) →
        normalizeCronStatus job = .ok)
    ∧ (job.enabled ≠ some false → job.state.runningAtMs = none →
        cronLastStatus job ∈ (["error", "failed", "timeout"] : List String) →
        normalizeCronStatus job = .error)
    ∧ (job.enabled ≠ some false → job.state.runningAtMs = none →
        cronLastStatus job ∉ (["ok", "success", "completed"] : List String) →
        cronLastStatus job ∉ (["error", "failed", "timeout"] : List String) →
        normalizeCronStatus job = .idle)
    ∧ normalizeCronStatus { enabled := some true, state := { lastStatus := some "failed" } }
        = .error := by
  refine ⟨?_, ?_, ?_, ?_, ?_, rfl⟩
  · intro h
    simp [normalizeCronStatus, h]
  · intro h1 h2
    simp [normalizeCronStatus, h1, h2]
  · intro h1 h2 h3
    simp only [List.mem_cons, List.not_mem_nil, or_false] at h3
    rcases h3 with h | h | h <;> simp [normalizeCronStatus, h1, h2, h]
  · intro h1 h2 h3
    simp only [List.mem_cons, List.not_mem_nil, or_false] at h3
    rcases h3 with h | h | h <;> simp [normalizeCronStatus, h1, h2, h]
  · intro h1 h2 h3 h4
    simp [normalizeCronStatus, h1, h2, h3, h4]

/-- C2 witness: a disabled job with a recorded failure still derives
`disabled`, and an enabled failed job derives `error`. -/
theorem cron_status_precedence_witness :
    normalizeCronStatus
        { enabled := some false, state := { lastStatus := some "failed" } } = .disabled
    ∧ normalizeCronStatus
        { enabled := some true, state := { lastStatus := some "failed" } } = .error := by
  refine ⟨(cron_status_precedence _).1 rfl, ?_⟩
  exact (cron_status_precedence
    { enabled := some true, state := { lastStatus := some "failed" } }).2.2.2.1
    (by simp) rfl (by decide)

/-- C8: whenever the CLI query fails, or succeeds with empty stdout, or its
output is unparsable, the wrong shape, or an empty job list, the cron
payload is built from the static jobs file with `source: "file"`; when the
CLI yields at least one job the payload reports `source: "cli"` with those
jobs.  `loadCronJobs` is a total function, so it returns in every case. -/
theorem cron_source_fallback (ok stdoutNonempty : Bool) (parsed : Option CliParsed)
    (fileJobs : List CronRawJob) :
    (cliExtractJobs ok stdoutNonempty parsed = [] →
        (loadCronJobs ok stdoutNonempty parsed fileJobs).source = CronSource.file
        ∧ (loadCronJobs ok stdoutNonempty parsed fileJobs).jobs = fileJobs.map mapCronJob)
    ∧ (ok = false → cliExtractJobs ok stdoutNonempty parsed = [])
    ∧ (stdoutNonempty = false → cliExtractJobs ok stdoutNonempty parsed = [])
    ∧ (parsed = none → cliExtractJobs ok stdoutNonempty parsed = [])
    ∧ (parsed = some CliParsed.other → cliExtractJobs ok stdoutNonempty parsed = [])
    ∧ (cliExtractJobs ok stdoutNonempty parsed ≠ [] →
        (loadCronJobs ok stdoutNonempty parsed fileJobs).source = CronSource.cli
        ∧ (loadCronJobs ok stdoutNonempty parsed fileJobs).jobs
            = (cliExtractJobs ok stdoutNonempty parsed).map mapCronJob) := by
  refine ⟨?_, ?_, ?_, ?_, ?_, ?_⟩
  · intro h
    constructor <;> simp [loadCronJobs, h]
  · intro h
    simp [cliExtractJobs, h]
  · intro h
    simp [cliExtractJobs, h]
  · intro h
    cases hok : ok <;> cases hne : stdoutNonempty <;> simp [cliExtractJobs, h]
  · intro h
    cases hok : ok <;> cases hne : stdoutNonempty <;> simp [cliExtractJobs, h]
  · intro h
    have hlen : ¬ (cliExtractJobs ok stdoutNonempty parsed).length = 0 := by
      simpa [List.length_eq_zero] using h
    constructor <;> simp [loadCronJobs, hlen]

/-- C8 witness: a failed CLI query falls back to the file jobs, and a CLI
array with one job is served from the CLI. -/
theorem cron_source_fallback_witness :
    cliExtractJobs false true none = []
    ∧ (loadCronJobs false true none [{ id := some "job-1" }]).source = CronSource.file
    ∧ (loadCronJobs false true none [{ id := some "job-1" }]).jobs
        = [mapCronJob { id := some "job-1" }]
    ∧ (loadCronJobs true true (some (CliParsed.arr [{ id := some "job-2" }])) []).source
        = CronSource.cli := by
  have hfile := (cron_source_fallback false true none [{ id := some "job-1" }]).1 rfl
  have hcli := (cron_source_fallback true true
    (some (CliParsed.arr [{ id := some "job-2" }])) []).2.2.2.2.2 (by simp [cliExtractJobs])
  exact ⟨rfl, hfile.1, hfile.2, hcli.1⟩

/-- A cron job owned by an agent whose last run is recent but which is not
currently running. -/
def freshJob : MappedAgentJob :=
  { name := "daily report", status := "ok", lastRunAt := some 1000 }

/-- C4 counterexample: at wall-clock time 1000 ms the most recent run of
the agent's only job (also at 1000 ms) lies well inside the 6-hour
freshness window (6 * 60 * 60 * 1000 ms), yet `buildAgentSummary` derives
status `scheduled`, not `active`: the current agent-status derivation never
consults a freshness window. -/
theorem agent_fresh_run_not_active :
    freshJob.lastRunAt = some 1000
    ∧ (0 : Int) ≤ 1000 - 1000
    ∧ (1000 - 1000 : Int) < 6 * 60 * 60 * 1000
    ∧ buildAgentSummaryStatus [freshJob] = AgentStatus.scheduled
    ∧ AgentStatus.scheduled ≠ AgentStatus.active := by
  refine ⟨rfl, by norm_num, by norm_num, rfl, by decide⟩

/-- C4 (amended): the derived agent status is `active` if any owned job has
status `running`, else `scheduled` if the agent owns at least one job, else
`idle`; the 6-hour freshness window plays no part in this derivation. -/
theorem agent_status_derivation (jobs : List MappedAgentJob) :
    ((∃ j ∈ jobs, j.status = "running") → buildAgentSummaryStatus jobs = .active)
    ∧ ((∀ j ∈ jobs, j.status ≠ "running") → jobs ≠ [] →
        buildAgentSummaryStatus jobs = .scheduled)
    ∧ (jobs = [] → buildAgentSummaryStatus jobs = .idle) := by
  refine ⟨?_, ?_, ?_⟩
  · intro h
    obtain ⟨j, hj, hs⟩ := h
    have hfind : (jobs.find? (fun job => job.status == "running")).isSome := by
      rw [List.find?_isSome]
      exact ⟨j, hj, by simp [hs]⟩
    simp [buildAgentSummaryStatus, hfind]
  · intro h hne
    have hfind : jobs.find? (fun job => job.status == "running") = none := by
      rw [List.find?_eq_none]
      intro j hj
      simp [h j hj]
    have hlen : 0 < jobs.length := List.length_pos.mpr hne
    simp [buildAgentSummaryStatus, hfind, hlen]
  · intro h
    subst h
    rfl

/-- C4 witness: a running job makes the agent `active`; an agent with no
jobs is `idle`; the fresh-but-not-running agent is `scheduled`. -/
theorem agent_status_derivation_witness :
    buildAgentSummaryStatus [{ name := "worker", status := "running" }] = AgentStatus.active
    ∧ buildAgentSummaryStatus [] = AgentStatus.idle
    ∧ buildAgentSummaryStatus [freshJob] = AgentStatus.scheduled := by
  refine ⟨?_, (agent_status_derivation []).2.2 rfl, ?_⟩
  · exact (agent_status_derivation [{ name := "worker", status := "running" }]).1
      ⟨{ name := "worker", status := "running" }, by simp, rfl⟩
  · exact (agent_status_derivation [freshJob]).2.1 (by simp [freshJob]) (by simp)

/-! ### Lead deduplication lemmas -/

theorem find?_append_some {α : Type} (p : α → Bool) {l1 : List α} (l2 : List α) {a : α}
    (h : l1.find? p = some a) : (l1 ++ l2).find? p = some a := by
  induction l1 with
  | nil => simp [List.find?] at h
  | cons x xs ih =>
    by_cases hx : p x
    · rw [List.find?_cons_of_pos _ hx] at h
      simpa [List.find?_cons_of_pos _ hx] using h
    · rw [List.find?_cons_of_neg _ hx] at h
      simpa [List.find?_cons_of_neg _ hx] using ih h

theorem find?_append_none {α : Type} (p : α → Bool) {l1 : List α} (l2 : List α)
    (h : l1.find? p = none) : (l1 ++ l2).find? p = l2.find? p := by
  induction l1 with
  | nil => simp
  | cons x xs ih =>
    by_cases hx : p x
    · rw [List.find?_cons_of_pos _ hx] at h
      cases h
    · rw [List.find?_cons_of_neg _ hx] at h
      simpa [List.find?_cons_of_neg _ hx] using ih h

/-- Invariant of the dedup loop: looking a key up in the accumulator agrees
with finding the first lead with that key among the already-processed
leads; one loop step preserves it. -/
theorem dedupStep_find (acc : List (String × DedupLead)) (pre : List MappedLead)
    (x : MappedLead)
    (h : ∀ k : String, acc.find? (fun kv => kv.1 == k)
        = (pre.find? (fun m => dedupKey m == k)).map (fun m => (dedupKey m, toDedup m))) :
    ∀ k : String, (dedupStep acc x).find? (fun kv => kv.1 == k)
      = ((pre ++ [x]).find? (fun m => dedupKey m == k)).map
          (fun m => (dedupKey m, toDedup m)) := by
  intro k
  by_cases hany : acc.any (fun kv => kv.1 == dedupKey x)
  · rw [dedupStep, if_pos hany]
    cases hpre : pre.find? (fun m => dedupKey m == k) with
    | some m =>
      rw [find?_append_some _ [x] hpre, h k, hpre]
    | none =>
      rw [find?_append_none _ [x] hpre, h k, hpre]
      by_cases hk : dedupKey x = k
      · obtain ⟨kv, hkv, hkveq⟩ := List.any_eq_true.mp hany
        have hkv1 : kv.1 = k := hk ▸ (by simpa using hkveq)
        have := List.find?_eq_none.mp (by rw [h k, hpre]; rfl) kv hkv
        simp [hkv1] at this
      · simp [List.find?, show (dedupKey x == k) = false from beq_eq_false_iff_ne.mpr hk]
  · rw [dedupStep, if_neg hany]
    cases hpre : pre.find? (fun m => dedupKey m == k) with
    | some m =>
      have hacc : acc.find? (fun kv => kv.1 == k) = some (dedupKey m, toDedup m) := by
        rw [h k, hpre]; rfl
      rw [find?_append_some _ _ hacc, find?_append_some _ [x] hpre]
      rfl
    | none =>
      have hacc : acc.find? (fun kv => kv.1 == k) = none := by
        rw [h k, hpre]; rfl
      rw [find?_append_none _ _ hacc, find?_append_none _ [x] hpre]
      by_cases hk : dedupKey x = k
      · simp [List.find?, hk]
      · simp [List.find?, show (dedupKey x == k) = false from beq_eq_false_iff_ne.mpr hk]

theorem dedupFold_go_find (l : List MappedLead) :
    ∀ (acc : List (String × DedupLead)) (pre : List MappedLead),
      (∀ k : String, acc.find? (fun kv => kv.1 == k)
          = (pre.find? (fun m => dedupKey m == k)).map (fun m => (dedupKey m, toDedup m))) →
      ∀ k : String, (l.foldl dedupStep acc).find? (fun kv => kv.1 == k)
        = ((pre ++ l).find? (fun m => dedupKey m == k)).map
            (fun m => (dedupKey m, toDedup m)) := by
  induction l with
  | nil =>
    intro acc pre h k
    simpa using h k
  | cons x xs ih =>
    intro acc pre h k
    rw [List.foldl_cons]
    have := ih (dedupStep acc x) (pre ++ [x]) (dedupStep_find acc pre x h) k
    simpa [List.append_assoc] using this

/-- The dedup map keeps, for every key, exactly the first lead with that key
in the merged priority-ordered list. -/
theorem dedupFold_find (leads : List MappedLead) (k : String) :
    (dedupFold leads).find? (fun kv => kv.1 == k)
      = (leads.find? (fun m => dedupKey m == k)).map (fun m => (dedupKey m, toDedup m)) := by
  simpa using dedupFold_go_find leads [] [] (by intro k2; simp) k

theorem dedupFold_go_nodup (l : List MappedLead) :
    ∀ acc : List (String × DedupLead), ((acc.map Prod.fst).Nodup) →
      (((l.foldl dedupStep acc).map Prod.fst).Nodup) := by
  induction l with
  | nil => intro acc h; simpa using h
  | cons x xs ih =>
    intro acc h
    rw [List.foldl_cons]
    refine ih (dedupStep acc x) ?_
    by_cases hany : acc.any (fun kv => kv.1 == dedupKey x)
    · rw [dedupStep, if_pos hany]; exact h
    · rw [dedupStep, if_neg hany]
      have hnot : dedupKey x ∉ acc.map Prod.fst := by
        intro hmem
        obtain ⟨kv, hkv, hkveq⟩ := List.mem_map.mp hmem
        exact hany (List.any_eq_true.mpr ⟨kv, hkv, by simp [hkveq]⟩)
      simp only [List.map_append, List.map_cons, List.map_nil]
      rw [List.nodup_append]
      refine ⟨h, List.nodup_singleton _, ?_⟩
      intro a ha hb
      rw [List.mem_singleton] at hb
      exact hnot (hb ▸ ha)

/-- The keys of the dedup map are pairwise distinct: the merged result has
at most one lead per case-folded composite key. -/
theorem dedupFold_keys_nodup (leads : List MappedLead) :
    ((dedupFold leads).map Prod.fst).Nodup :=
  dedupFold_go_nodup leads [] (by simp)

theorem find?_key_of_mem {l : List (String × DedupLead)}
    (hn : (l.map Prod.fst).Nodup) {kv : String × DedupLead} (h : kv ∈ l) :
    l.find? (fun x => x.1 == kv.1) = some kv := by
  induction l with
  | nil => cases h
  | cons a l ih =>
    rcases List.mem_cons.mp h with rfl | hmem
    · exact List.find?_cons_of_pos _ (by simp)
    · have hn' := hn
      rw [List.map_cons, List.nodup_cons] at hn'
      have ha : a.1 ≠ kv.1 := by
        intro he
        exact hn'.1 (he ▸ List.mem_map.mpr ⟨kv, hmem, rfl⟩)
      rw [List.find?_cons_of_neg _ (by simpa using ha)]
      exact ih hn'.2 hmem

/-- Every entry of the dedup map is the normalization of some merged lead. -/
theorem mem_dedupFold {leads : List MappedLead} {kv : String × DedupLead}
    (h : kv ∈ dedupFold leads) : ∃ m ∈ leads, kv = (dedupKey m, toDedup m) := by
  have h1 := find?_key_of_mem (dedupFold_keys_nodup leads) h
  rw [dedupFold_find] at h1
  cases hfind : leads.find? (fun m => dedupKey m == kv.1) with
  | none => rw [hfind] at h1; cases h1
  | some m =>
    rw [hfind] at h1
    exact ⟨m, List.mem_of_find?_eq_some hfind, (Option.some_injective _ h1).symm⟩

theorem mem_dedupFold_keys_iff (leads : List MappedLead) (k : String) :
    k ∈ (dedupFold leads).map Prod.fst ↔ k ∈ leads.map dedupKey := by
  constructor
  · intro h
    obtain ⟨kv, hkv, hk⟩ := List.mem_map.mp h
    obtain ⟨m, hm, he⟩ := mem_dedupFold hkv
    exact List.mem_map.mpr ⟨m, hm, by rw [← hk, he]⟩
  · intro h
    obtain ⟨m, hm, hk⟩ := List.mem_map.mp h
    have hfind2 : (leads.find? (fun m => dedupKey m == k)).isSome := by
      rw [List.find?_isSome]
      exact ⟨m, hm, by rw [hk]; exact beq_self_eq_true k⟩
    obtain ⟨m2, hm2⟩ := Option.isSome_iff_exists.mp hfind2
    have hfind : ((dedupFold leads).find? (fun kv => kv.1 == k)).isSome := by
      rw [dedupFold_find, hm2]
      rfl
    obtain ⟨kv, hkv⟩ := Option.isSome_iff_exists.mp hfind
    have hkv1 : kv.1 = k := by simpa using List.find?_some hkv
    exact List.mem_map.mpr ⟨kv, List.mem_of_find?_eq_some hkv, hkv1⟩

/-- The size of the dedup map is the number of distinct composite keys. -/
theorem dedupFold_length (leads : List MappedLead) :
    (dedupFold leads).length = (leads.map dedupKey).toFinset.card := by
  have hn := dedupFold_keys_nodup leads
  have h1 : (dedupFold leads).length = ((dedupFold leads).map Prod.fst).length :=
    (List.length_map _ _).symm
  have h2 : ((dedupFold leads).map Prod.fst).toFinset = (leads.map dedupKey).toFinset := by
    ext k
    simp only [List.mem_toFinset]
    exact mem_dedupFold_keys_iff leads k
  rw [h1, ← List.toFinset_card_of_nodup hn, h2]

/-- C3: the merged `/api/leads` result keeps at most one lead per
case-folded composite `(email, website, name)` key (the dedup keys are
pairwise distinct and the returned list is a permutation of the dedup-map
values); for every key, the kept lead is the first with that key in the
priority order structured store, then document store, then batch files; the
final list is non-increasing in the creation-timestamp sort key; and when
every merged lead with a timestamp has a positive one, no lead without a
timestamp ever precedes a timestamped lead (nulls sort last). -/
theorem leads_dedup_priority_sorted (geo : List GeoLeadRec) (sales : List SalesLeadRec)
    (prospects : List ProspectBatchItem) :
    ((dedupFold (mergedLeads geo sales prospects)).map Prod.fst).Nodup
    ∧ (loadLeadsPayload geo sales prospects).leads.Perm
        ((dedupFold (mergedLeads geo sales prospects)).map Prod.snd)
    ∧ (∀ k : String,
        (dedupFold (mergedLeads geo sales prospects)).find? (fun kv => kv.1 == k)
          = ((mergedLeads geo sales prospects).find? (fun m => dedupKey m == k)).map
              (fun m => (dedupKey m, toDedup m)))
    ∧ (loadLeadsPayload geo sales prospects).leads.Pairwise
        (fun a b => leadSortKey b ≤ leadSortKey a)
    ∧ ((∀ m ∈ mergedLeads geo sales prospects, 0 < (toDedup m).createdAt.getD 1) →
        (loadLeadsPayload geo sales prospects).leads.Pairwise
          (fun a b => a.createdAt = none → b.createdAt = none)) := by
  refine ⟨dedupFold_keys_nodup _, sortDescBy_perm _ _, dedupFold_find _,
    sortDescBy_sorted _ _, ?_⟩
  intro hpos
  have hsorted := sortDescBy_sorted leadSortKey
    ((dedupFold (mergedLeads geo sales prospects)).map Prod.snd)
  refine hsorted.imp_of_mem ?_
  intro a b ha hb hR hnone
  cases hb2 : b.createdAt with
  | none => rfl
  | some t =>
    exfalso
    have hbmem : b ∈ (dedupFold (mergedLeads geo sales prospects)).map Prod.snd :=
      (sortDescBy_perm _ _).mem_iff.mp hb
    obtain ⟨kv, hkv, hsnd⟩ := List.mem_map.mp hbmem
    obtain ⟨m, hm, he⟩ := mem_dedupFold hkv
    have hb3 : b = toDedup m := by rw [← hsnd, he]
    have hpt := hpos m hm
    rw [← hb3, hb2] at hpt
    simp only [Option.getD_some] at hpt
    have hkb : leadSortKey b = t := by simp [leadSortKey, hb2]
    have hka : leadSortKey a = 0 := by simp [leadSortKey, hnone]
    rw [hkb, hka] at hR
    omega

/-- A document-store lead whose creation timestamp is missing. -/
def nullGeoLead : GeoLeadRec := { name := some "NoDate" }

/-- A document-store lead created before the epoch (negative parse value,
e.g. an ISO date in 1969). -/
def oldGeoLead : GeoLeadRec := { name := some "Old", createdAt := some (some (-5)) }

/-- C3 counterexample: the sort treats a missing creation timestamp as the
epoch (0), so a lead with a pre-epoch timestamp (-5) sorts after a lead
with no timestamp at all — null-timestamp leads are not always last. -/
theorem leads_null_before_dated :
    (loadLeadsPayload [nullGeoLead, oldGeoLead] [] []).leads
      = [{ name := "NoDate", email := "", source := "geo-audit", createdAt := none },
          { name := "Old", email := "", source := "geo-audit", createdAt := some (-5) }]
    ∧ ¬ (loadLeadsPayload [nullGeoLead, oldGeoLead] [] []).leads.Pairwise
        (fun a b => a.createdAt = none → b.createdAt = none) := by
  exact ⟨by decide, by decide⟩

/-- A concrete document-store lead used to instantiate the C3 hypotheses. -/
def positiveGeoLead : GeoLeadRec :=
  { name := some "Acme", email := some "a@x.com", createdAt := some (some 5) }

/-- C3 witness: the nulls-last clause instantiated on a store whose only
lead carries the positive timestamp 5. -/
theorem leads_dedup_priority_sorted_witness :
    (∀ m ∈ mergedLeads [positiveGeoLead] [] [], 0 < (toDedup m).createdAt.getD 1)
    ∧ (loadLeadsPayload [positiveGeoLead] [] []).leads.Pairwise
        (fun a b => a.createdAt = none → b.createdAt = none) := by
  have hpos : ∀ m ∈ mergedLeads [positiveGeoLead] [] [],
      0 < (toDedup m).createdAt.getD 1 := by decide
  exact ⟨hpos, (leads_dedup_priority_sorted [positiveGeoLead] [] []).2.2.2.2 hpos⟩

theorem mergedLeads_doubled_mem (geo : List GeoLeadRec) (sales : List SalesLeadRec)
    (prospects : List ProspectBatchItem) (x : MappedLead) :
    x ∈ mergedLeads (geo ++ geo) (sales ++ sales) (prospects ++ prospects)
      ↔ x ∈ mergedLeads geo sales prospects := by
  simp only [mergedLeads, List.map_append, List.mem_append, or_self]

/-- C9: lead deduplication is idempotent on sources: merging the three
sources each concatenated with themselves yields a result of the same size
as merging them once. -/
theorem leads_dedup_idempotent (geo : List GeoLeadRec) (sales : List SalesLeadRec)
    (prospects : List ProspectBatchItem) :
    (loadLeadsPayload (geo ++ geo) (sales ++ sales) (prospects ++ prospects)).count
      = (loadLeadsPayload geo sales prospects).count := by
  simp only [loadLeadsPayload, sortDescBy_length, List.length_map, dedupFold_length]
  apply congrArg Finset.card
  ext k
  simp only [List.mem_toFinset, List.mem_map]
  constructor
  · rintro ⟨m, hm, hk⟩
    exact ⟨m, (mergedLeads_doubled_mem geo sales prospects m).mp hm, hk⟩
  · rintro ⟨m, hm, hk⟩
    exact ⟨m, (mergedLeads_doubled_mem geo sales prospects m).mpr hm, hk⟩

/-- The document-store lead of the C7 end-to-end scenario. -/
def acmeDocLead : GeoLeadRec :=
  { name := some "Acme", email := some "a@x.com", createdAt := some (some 1000) }

/-- The later-created batch-file record of the C7 end-to-end scenario. -/
def acmeBatchItem : ProspectBatchItem :=
  { business_name := some "Acme", website := some "", mtimeMs := some 2000 }

/-- C7 counterexample: with the document store holding
`{name: "Acme", email: "a@x.com"}` and a later batch file holding
`{business_name: "Acme", website: ""}`, the merged result contains two
leads named "Acme", not exactly one: the batch lead's empty email gives it
a different composite dedup key, so source priority never collapses the
pair. -/
theorem leads_scenario_two_acme :
    ((loadLeadsPayload [acmeDocLead] [] [acmeBatchItem]).leads.filter
        (fun l => l.name == "Acme")).length = 2
    ∧ ((loadLeadsPayload [acmeDocLead] [] [acmeBatchItem]).leads.filter
        (fun l => l.name == "Acme")).length ≠ 1 := by
  exact ⟨by decide, by decide⟩

/-- C7 (amended): the scenario yields two leads named "Acme" because their
composite keys differ (the batch lead has empty email).  The document-store
lead keeps `email: "a@x.com"` and a `createdAt` equal to the document
store's timestamp (1000), not the batch file's modification time; the batch
lead carries the batch file's modification time (2000) and sorts first. -/
theorem leads_scenario_payload :
    (loadLeadsPayload [acmeDocLead] [] [acmeBatchItem]).leads
      = [{ name := "Acme", email := "", source := "sales-prospect", createdAt := some 2000 },
          { name := "Acme", email := "a@x.com", source := "geo-audit", createdAt := some 1000 }]
    ∧ (loadLeadsPayload [acmeDocLead] [] [acmeBatchItem]).count = 2 := by
  exact ⟨by decide, by decide⟩

end MissionControl
